import Mathlib

/-!
A shallow embedding of `unclaimed_property_app.py` (v0.4): the ingestion
pipeline (`build_database`, `sync`), the SQLite record store with its
`INSERT OR IGNORE` deduplication, the FTS5 search index, and the read
endpoints (`search`, `get_property`, `start_claim`).  Database state is
modelled as explicit lists threaded through each operation; fallible
Python calls return `Except` / an `Option PyError` outcome.
-/

namespace UPA

/-- Decidable equality for `Except`, used to evaluate endpoint results on
concrete inputs. -/
instance {ε α : Type} [DecidableEq ε] [DecidableEq α] : DecidableEq (Except ε α) := fun a b =>
  match a, b with
  | .error e, .error f =>
    if h : e = f then isTrue (by rw [h]) else isFalse (fun c => h (Except.error.inj c))
  | .ok x, .ok y =>
    if h : x = y then isTrue (by rw [h]) else isFalse (fun c => h (Except.ok.inj c))
  | .error _, .ok _ => isFalse (fun c => Except.noConfusion c)
  | .ok _, .error _ => isFalse (fun c => Except.noConfusion c)

/-- Python runtime errors the embedded code can raise, plus the spec's
designated fetch-layer error.
* `valueError`: raised by `float(...)` on a non-numeric, non-empty string
  (source line 129).
* `typeError`: raised by `cursor.executemany(sql)` when it is called with
  only a SQL string and no `seq_of_parameters` argument (the index-extension
  calls at source lines 141 and 146); the statement itself is never run.
* `indexError`: raised by `zf.namelist()[0]` when the archive holds no
  member (source line 84).
* `archiveEmpty`: modelled from the spec: the designated `ArchiveEmpty`
  error of the fetch layer.  The code itself never defines or raises it;
  the constructor exists only so the spec's statement can be expressed. -/
inductive PyError where
  | valueError
  | typeError
  | indexError
  | archiveEmpty
deriving DecidableEq

/-- One raw CSV row as produced by `csv.DictReader`: an association list
from header names to string values; `row.get k` is `List.lookup k`. -/
abbrev RawRow := List (String × String)

/-- Model of `row.get(k, "")` (source lines 124-134). -/
def getStr (r : RawRow) (k : String) : String :=
  (r.lookup k).getD ""

/-- Python `a or b` specialised to two optional strings: `None` and the
empty string are falsy, so the right operand is returned for them. -/
def pyOr (a b : Option String) : Option String :=
  match a with
  | none => b
  | some s => if s = "" then b else some s

/-- Source line 123: `row.get("PROPERTY_ID") or row.get("Property ID")`. -/
def extractId (r : RawRow) : Option String :=
  pyOr (r.lookup "PROPERTY_ID") (r.lookup "Property ID")

/-- Split a character list at every dot, keeping empty segments (helper
for the decimal grammar of Python `float`). -/
def splitOnDot : List Char → List (List Char)
  | [] => [[]]
  | c :: t =>
    let r := splitOnDot t
    if c = '.' then [] :: r
    else
      match r with
      | h :: t2 => (c :: h) :: t2
      | [] => [[c]]

/-- Value of a digit string, most significant first. -/
def digitsToNat (cs : List Char) : Nat :=
  cs.foldl (fun a c => a * 10 + (c.toNat - 48)) 0

/-- Python `float(s)` on the plain decimal grammar: optional sign, an
integer part and an optional fractional part, at least one digit overall.
Exotic inputs `float` also accepts (exponents, `inf`, `nan`, surrounding
whitespace, underscores) are outside the fragment this program's data
exercises; every input outside the grammar yields `none` (a `ValueError`).
Values are exact rationals; all concrete amounts used here are exactly
representable, so no binary-rounding modelling is needed. -/
def pyFloat (s : String) : Option Rat :=
  let signedBody : Int × List Char :=
    match s.data with
    | '-' :: t => (-1, t)
    | '+' :: t => (1, t)
    | t => (1, t)
  let sg := signedBody.1
  let body := signedBody.2
  match splitOnDot body with
  | [ip] =>
    if ip ≠ [] ∧ ip.all Char.isDigit then
      some (mkRat (sg * (digitsToNat ip : Int)) 1)
    else none
  | [ip, fp] =>
    if (ip ≠ [] ∨ fp ≠ []) ∧ ip.all Char.isDigit ∧ fp.all Char.isDigit then
      some (mkRat (sg * ((digitsToNat ip * 10 ^ fp.length + digitsToNat fp : Nat) : Int))
        (10 ^ fp.length))
    else none
  | _ => none

/-- One row of the `properties` table, i.e. the 13-tuple built at source
lines 121-137.  `property_id` is `Option` because SQLite's
`TEXT PRIMARY KEY` column admits `NULL` (and the tuple's first component
is `None` when neither id header is present).  `raw_json` keeps the
original row (`str(row)` in the source) as an opaque payload. -/
structure PropertyRow where
  property_id : Option String
  owner_name : String
  owner_address : String
  owner_city : String
  owner_state : String
  owner_zip : String
  amount_reported : Rat
  cash_reported : String
  property_type : String
  holder_name : String
  holder_address : String
  reported_date : String
  raw_json : RawRow
deriving DecidableEq

/-- Source line 129: `float(row.get("AMOUNT_REPORTED", 0) or 0)`.
A missing key gives the integer default `0`; a present-but-empty string is
falsy and also becomes `0`; any other string goes through `float`, which
raises `ValueError` when it does not parse. -/
def amountValue (r : RawRow) : Except PyError Rat :=
  match r.lookup "AMOUNT_REPORTED" with
  | none => .ok 0
  | some s =>
    if s = "" then .ok 0
    else
      match pyFloat s with
      | some v => .ok v
      | none => .error .valueError

/-- The tuple construction at source lines 121-137 for a single raw row.
The only fallible part is the amount conversion; everything else is
total string defaulting.  Note line 124 concatenates `OWNER_NAME` and
`OWNER_FIRST_NAME` with a single space in between. -/
def normalizeRow (r : RawRow) : Except PyError PropertyRow :=
  match amountValue r with
  | .error e => .error e
  | .ok amt =>
    .ok
      { property_id := extractId r
        owner_name := getStr r "OWNER_NAME" ++ " " ++ getStr r "OWNER_FIRST_NAME"
        owner_address := getStr r "OWNER_ADDRESS"
        owner_city := getStr r "OWNER_CITY"
        owner_state := getStr r "OWNER_STATE"
        owner_zip := getStr r "OWNER_ZIP"
        amount_reported := amt
        cash_reported := getStr r "CASH_REPORTED"
        property_type := getStr r "PROPERTY_TYPE"
        holder_name := getStr r "HOLDER_NAME"
        holder_address := getStr r "HOLDER_ADDRESS"
        reported_date := getStr r "REPORTED_DATE"
        raw_json := r }

/-- Model of `SELECT * FROM properties WHERE property_id = ?` followed by
`fetchone()` (source line 191): the first stored row whose `property_id`
equals the given string.  SQL equality never matches `NULL`, which the
predicate `q.property_id == some pid` reflects. -/
def getPropertyRow (store : List PropertyRow) (pid : String) : Option PropertyRow :=
  store.find? (fun q => q.property_id == some pid)

/-- Model of `INSERT OR IGNORE` of one row into `properties` (source lines 139 and
144).  SQLite semantics for the `TEXT PRIMARY KEY` column: a `NULL` key
never conflicts (every `NULL` is distinct), so the row is appended; a
non-`NULL` key conflicts exactly when a row with that key already exists,
in which case the new row is silently ignored. -/
def insertOrIgnore (store : List PropertyRow) (p : PropertyRow) : List PropertyRow :=
  match p.property_id with
  | none => store ++ [p]
  | some s => if (getPropertyRow store s).isSome then store else store ++ [p]

/-- Model of `executemany("INSERT OR IGNORE INTO properties VALUES ...", rows)`:
the pending rows are inserted in order, each with ignore-on-conflict. -/
def commitChunk (store : List PropertyRow) (chunk : List PropertyRow) : List PropertyRow :=
  chunk.foldl insertOrIgnore store

/-- One row of the `properties_fts` FTS5 table: the store rowid plus the
four projected text columns (source lines 110-112). -/
structure FtsEntry where
  rowid : Nat
  owner_name : String
  owner_address : String
  owner_city : String
  holder_name : String
deriving DecidableEq

/-- The persistent SQLite database: the `properties` table in insertion
order (rowid is position + 1) and the `properties_fts` table. -/
structure DB where
  properties : List PropertyRow
  fts : List FtsEntry
deriving DecidableEq

/-- A freshly created database file: both tables empty. -/
def DB.empty : DB := ⟨[], []⟩

/-- Batch size of the flush condition `i % 10000 == 0` at source line 138. -/
def CHUNK : Nat := 10000

/-- The row loop of `build_database` (source lines 120-147) on one CSV
buffer.  `i` is the 1-based index of the next row (`enumerate(reader, 1)`),
`pending` the accumulated `rows` list.  A `float` failure propagates out
of the loop with nothing further committed (the in-memory `rows` buffer is
lost).  At each flush point the pending rows are committed to `properties`
(`executemany` + `conn.commit()`), after which the index-extension
`executemany` is reached: it was given no parameter sequence, so it raises
`TypeError` before executing any SQL, aborting the run with the chunk
committed and `properties_fts` untouched. -/
def processRows : List RawRow → Nat → List PropertyRow → DB → DB × Option PyError
  | [], _, pending, db =>
    if pending.isEmpty then (db, none)
    else ({ db with properties := commitChunk db.properties pending }, some .typeError)
  | r :: rs, i, pending, db =>
    match normalizeRow r with
    | .error e => (db, some e)
    | .ok p =>
      if i % CHUNK == 0 then
        ({ db with properties := commitChunk db.properties (pending ++ [p]) }, some .typeError)
      else processRows rs (i + 1) (pending ++ [p]) db

/-- The rows `processRows` ends up committing, as a function of the input
alone (the store contents never influence control flow). -/
def committedRows : List RawRow → Nat → List PropertyRow → List PropertyRow
  | [], _, pending => pending
  | r :: rs, i, pending =>
    match normalizeRow r with
    | .error _ => []
    | .ok p =>
      if i % CHUNK == 0 then pending ++ [p]
      else committedRows rs (i + 1) (pending ++ [p])

/-- The error `processRows` terminates with, as a function of the input
alone (`none` only when nothing was pending, i.e. an empty buffer). -/
def runError : List RawRow → Nat → List PropertyRow → Option PyError
  | [], _, pending => if pending.isEmpty then none else some .typeError
  | r :: rs, i, pending =>
    match normalizeRow r with
    | .error e => some e
    | .ok p =>
      if i % CHUNK == 0 then some .typeError
      else runError rs (i + 1) (pending ++ [p])

/-- Model of `build_database` (source lines 89-148) over a list of CSV buffers,
each given as its parsed row list.  Table creation is `IF NOT EXISTS`, a
no-op on the modelled state.  A raised exception aborts the whole call;
state committed before the exception persists (WAL commits are durable). -/
def build_database (db : DB) (buffers : List (List RawRow)) : DB × Option PyError :=
  match buffers with
  | [] => (db, none)
  | t :: ts =>
    match processRows t 1 [] db with
    | (db2, none) => build_database db2 ts
    | (db2, some e) => (db2, some e)

/-- Model of `sync` (source lines 150-154): download the all-records archive,
extract its single CSV, and run `build_database` on that one buffer.  The
network fetch and zip decoding are I/O; the function is modelled from the
already-extracted row table, which is exactly the single buffer passed on. -/
def sync (db : DB) (table : List RawRow) : DB × Option PyError :=
  build_database db [table]

/-- Model of `extract_csv_from_zip` (source lines 82-87).  The archive is modelled
as its member list, each member a name paired with its decoded text.
`zf.namelist()[0]` on an empty archive raises `IndexError`; otherwise the
first member's content is returned. -/
def extract_csv_from_zip (entries : List (String × String)) : Except PyError String :=
  match entries with
  | [] => .error .indexError
  | (_, content) :: _ => .ok content

/-- Status and detail of an `HTTPException` as raised by the API handlers. -/
structure HttpError where
  status : Nat
  detail : String
deriving DecidableEq

/-- The error `HTTPException(status_code=400, detail="Query too short")` (line 179). -/
def queryTooShort : HttpError := ⟨400, "Query too short"⟩

/-- The error `HTTPException(404, "Not found")` (line 195). -/
def notFoundHttp : HttpError := ⟨404, "Not found"⟩

/-- Lower-cased whitespace tokens of a text field, the unit of FTS5's
default unicode61 token matching. -/
def textTokens (s : String) : List String :=
  (s.toLower.splitOn " ").filter (fun t => t ≠ "")

/-- Whether an FTS row matches a single bareword query: the query token
occurs in one of the four indexed columns. -/
def ftsMatch (q : String) (e : FtsEntry) : Bool :=
  ((textTokens e.owner_name ++ textTokens e.owner_address ++
    textTokens e.owner_city ++ textTokens e.holder_name).contains q.toLower)

/-- The join at source line 182: matching FTS rows (in index order, the
engine's order absent an ORDER BY) joined back to `properties` by rowid,
truncated to `limit`. -/
def searchRows (db : DB) (q : String) (limit : Nat) : List PropertyRow :=
  (((db.fts.filter (ftsMatch q)).filterMap
      (fun e => db.properties.get? (e.rowid - 1))).take limit)

/-- Model of the `search` endpoint (source lines 176-185): the length guard runs first
and raises 400 before any database access; otherwise the FTS join result
is returned.  Reads leave the database unchanged, which the returned
state records. -/
def search (db : DB) (q : String) (limit : Nat) :
    DB × Except HttpError (List PropertyRow) :=
  if q.length < 2 then (db, .error queryTooShort)
  else (db, .ok (searchRows db q limit))

/-- Model of the `get_property` endpoint (source lines 187-196): a single SELECT by id;
absence raises 404.  No write is performed. -/
def get_property (db : DB) (pid : String) : DB × Except HttpError PropertyRow :=
  match getPropertyRow db.properties pid with
  | some p => (db, .ok p)
  | none => (db, .error notFoundHttp)

/-- The `ClaimRequest` payload (source lines 198-203). -/
structure ClaimRequest where
  property_id : String
  claimant_name : String
  claimant_address : String
  claimant_email : String
  claimant_phone : Option String := none
deriving DecidableEq

/-- Model of the `start_claim` endpoint (source lines 205-210): it only calls
`get_property` on the payload's id; a 404 from the lookup propagates,
otherwise the acknowledgement message and the property are returned. -/
def start_claim (db : DB) (payload : ClaimRequest) :
    DB × Except HttpError (String × PropertyRow) :=
  let looked := get_property db payload.property_id
  match looked.2 with
  | .ok p => (looked.1, .ok ("Claim initiated", p))
  | .error e => (looked.1, .error e)

/-! Store-level lemmas about lookup and insert-or-ignore -/

/-- Looking a key up in a concatenation scans the left part first. -/
theorem getPropertyRow_append (l1 l2 : List PropertyRow) (s : String) :
    getPropertyRow (l1 ++ l2) s =
      match getPropertyRow l1 s with
      | some p => some p
      | none => getPropertyRow l2 s := by
  unfold getPropertyRow
  induction l1 with
  | nil => simp
  | cons a t ih =>
    cases ha : (a.property_id == some s) with
    | true => simp [List.find?_cons_of_pos, ha]
    | false => simpa [List.find?_cons_of_neg, ha] using ih

/-- An `INSERT OR IGNORE` of a `NULL`-keyed row always appends. -/
theorem insertOrIgnore_id_none (store : List PropertyRow) (p : PropertyRow)
    (hp : p.property_id = none) : insertOrIgnore store p = store ++ [p] := by
  simp only [insertOrIgnore, hp]

/-- An `INSERT OR IGNORE` of a keyed row whose key is already present is a
no-op (the conflict is ignored). -/
theorem insertOrIgnore_present (store : List PropertyRow) (p : PropertyRow)
    (s : String) (hp : p.property_id = some s)
    (h : (getPropertyRow store s).isSome) : insertOrIgnore store p = store := by
  simp only [insertOrIgnore, hp, h, if_true]

/-- An `INSERT OR IGNORE` of a keyed row whose key is absent appends. -/
theorem insertOrIgnore_absent (store : List PropertyRow) (p : PropertyRow)
    (s : String) (hp : p.property_id = some s)
    (h : getPropertyRow store s = none) : insertOrIgnore store p = store ++ [p] := by
  simp only [insertOrIgnore, hp, h, Option.isSome_none, Bool.false_eq_true, if_false]

/-- An existing record survives a later `INSERT OR IGNORE` of any row. -/
theorem getPropertyRow_insertOrIgnore_of_some (store : List PropertyRow)
    (p : PropertyRow) (s : String) (q : PropertyRow)
    (h : getPropertyRow store s = some q) :
    getPropertyRow (insertOrIgnore store p) s = some q := by
  cases hp : p.property_id with
  | none => rw [insertOrIgnore_id_none store p hp, getPropertyRow_append, h]
  | some t =>
    cases hts : getPropertyRow store t with
    | some q2 =>
      rw [insertOrIgnore_present store p t hp (by rw [hts]; rfl)]
      exact h
    | none => rw [insertOrIgnore_absent store p t hp hts, getPropertyRow_append, h]

/-- An existing record survives a whole committed chunk. -/
theorem getPropertyRow_commitChunk_of_some (chunk : List PropertyRow) :
    ∀ (store : List PropertyRow) (s : String) (q : PropertyRow),
      getPropertyRow store s = some q →
      getPropertyRow (commitChunk store chunk) s = some q := by
  induction chunk with
  | nil => intro store s q h; exact h
  | cons p ps ih =>
    intro store s q h
    exact ih _ s q (getPropertyRow_insertOrIgnore_of_some store p s q h)

/-- A present key stays present under `INSERT OR IGNORE`. -/
theorem isSome_insertOrIgnore (store : List PropertyRow) (p : PropertyRow)
    (s : String) (h : (getPropertyRow store s).isSome) :
    (getPropertyRow (insertOrIgnore store p) s).isSome := by
  obtain ⟨q, hq⟩ := Option.isSome_iff_exists.mp h
  rw [getPropertyRow_insertOrIgnore_of_some store p s q hq]
  rfl

/-- Inserting a row keyed `some s` makes `s` present. -/
theorem isSome_insertOrIgnore_self (store : List PropertyRow) (p : PropertyRow)
    (s : String) (hp : p.property_id = some s) :
    (getPropertyRow (insertOrIgnore store p) s).isSome := by
  cases hst : getPropertyRow store s with
  | some q =>
    rw [insertOrIgnore_present store p s hp (by rw [hst]; rfl), hst]
    rfl
  | none =>
    rw [insertOrIgnore_absent store p s hp hst, getPropertyRow_append, hst]
    simp [getPropertyRow, List.find?, hp]

/-- A present key stays present under a whole committed chunk. -/
theorem isSome_commitChunk (chunk : List PropertyRow) :
    ∀ (store : List PropertyRow) (s : String),
      (getPropertyRow store s).isSome →
      (getPropertyRow (commitChunk store chunk) s).isSome := by
  induction chunk with
  | nil => intro store s h; exact h
  | cons p ps ih =>
    intro store s h
    exact ih _ s (isSome_insertOrIgnore store p s h)

/-- After committing a chunk, the id of each of its rows is present. -/
theorem isSome_commitChunk_of_mem (chunk : List PropertyRow) :
    ∀ (store : List PropertyRow) (p : PropertyRow) (s : String),
      p ∈ chunk → p.property_id = some s →
      (getPropertyRow (commitChunk store chunk) s).isSome := by
  induction chunk with
  | nil => intro _ _ _ hmem _; cases hmem
  | cons q qs ih =>
    intro store p s hmem hid
    rcases List.mem_cons.mp hmem with rfl | hmem2
    · exact isSome_commitChunk qs _ s (isSome_insertOrIgnore_self store p s hid)
    · exact ih _ p s hmem2 hid

/-- Committing a chunk whose ids are all already present changes nothing. -/
theorem commitChunk_eq_of_all_present (chunk : List PropertyRow) :
    ∀ (store : List PropertyRow),
      (∀ p ∈ chunk, ∃ s, p.property_id = some s ∧ (getPropertyRow store s).isSome) →
      commitChunk store chunk = store := by
  induction chunk with
  | nil => intro store _; rfl
  | cons p ps ih =>
    intro store h
    obtain ⟨s, hid, hpres⟩ := h p (List.mem_cons_self p ps)
    show commitChunk (insertOrIgnore store p) ps = store
    rw [insertOrIgnore_present store p s hid hpres]
    exact ih store (fun q hq => h q (List.mem_cons_of_mem p hq))

/-! Characterizing one ingestion run -/

/-- Everything `processRows` does to the database: it commits exactly
`committedRows` into `properties`, never touches `properties_fts`, and
ends with `runError`.  Both summaries depend only on the input rows. -/
theorem processRows_eq (rows : List RawRow) :
    ∀ (i : Nat) (pending : List PropertyRow) (db : DB),
      processRows rows i pending db =
        ({ properties := commitChunk db.properties (committedRows rows i pending),
           fts := db.fts },
          runError rows i pending) := by
  induction rows with
  | nil =>
    intro i pending db
    cases pending <;> rfl
  | cons r rs ih =>
    intro i pending db
    show (match normalizeRow r with
          | .error e => (db, some e)
          | .ok p =>
            if i % CHUNK == 0 then
              ({ db with properties := commitChunk db.properties (pending ++ [p]) },
                some PyError.typeError)
            else processRows rs (i + 1) (pending ++ [p]) db) = _
    cases hn : normalizeRow r with
    | error e =>
      simp [committedRows, runError, hn]
      rfl
    | ok p =>
      cases hi : (i % CHUNK == 0) with
      | true => simp [committedRows, runError, hn, hi]
      | false => simp [committedRows, runError, hn, hi, ih]

/-- Evaluation of `build_database` on a single buffer, stated through the run summary
functions. -/
theorem build_database_single (db : DB) (t : List RawRow) :
    build_database db [t] =
      ({ properties := commitChunk db.properties (committedRows t 1 []),
         fts := db.fts },
        runError t 1 []) := by
  show (match processRows t 1 [] db with
        | (db2, none) => build_database db2 []
        | (db2, some e) => (db2, some e)) = _
  rw [processRows_eq]
  cases hr : runError t 1 [] with
  | none => rfl
  | some e => rfl

/-- Records survive a whole `build_database` call: nothing ever updates
or deletes a committed row. -/
theorem getPropertyRow_build_database_of_some (buffers : List (List RawRow)) :
    ∀ (db : DB) (s : String) (q : PropertyRow),
      getPropertyRow db.properties s = some q →
      getPropertyRow (build_database db buffers).1.properties s = some q := by
  induction buffers with
  | nil => intro db s q h; exact h
  | cons t ts ih =>
    intro db s q h
    show getPropertyRow
        (match processRows t 1 [] db with
         | (db2, none) => build_database db2 ts
         | (db2, some e) => (db2, some e)).1.properties s = some q
    rw [processRows_eq]
    have hkeep := getPropertyRow_commitChunk_of_some (committedRows t 1 []) db.properties s q h
    cases hr : runError t 1 [] with
    | none => exact ih _ s q hkeep
    | some e => exact hkeep

/-- Every row `processRows` commits is either carried over from the
pending buffer or is the successful normalization of an input row. -/
theorem mem_committedRows (rows : List RawRow) :
    ∀ (i : Nat) (pending : List PropertyRow) (p : PropertyRow),
      p ∈ committedRows rows i pending →
      p ∈ pending ∨ ∃ r ∈ rows, normalizeRow r = .ok p := by
  induction rows with
  | nil => intro i pending p h; exact Or.inl h
  | cons r rs ih =>
    intro i pending p h
    rw [show committedRows (r :: rs) i pending =
          (match normalizeRow r with
           | .error _ => []
           | .ok q =>
             if i % CHUNK == 0 then pending ++ [q]
             else committedRows rs (i + 1) (pending ++ [q])) from rfl] at h
    cases hn : normalizeRow r with
    | error e => simp only [hn] at h; cases h
    | ok q =>
      simp only [hn] at h
      split at h
      · rcases List.mem_append.mp h with h1 | h2
        · exact Or.inl h1
        · refine Or.inr ⟨r, List.mem_cons_self r rs, ?_⟩
          rw [hn, List.mem_singleton.mp h2]
      · rcases ih (i + 1) (pending ++ [q]) p h with h1 | ⟨r2, hr2, hok⟩
        · rcases List.mem_append.mp h1 with h3 | h4
          · exact Or.inl h3
          · refine Or.inr ⟨r, List.mem_cons_self r rs, ?_⟩
            rw [hn, List.mem_singleton.mp h4]
        · exact Or.inr ⟨r2, List.mem_cons_of_mem r hr2, hok⟩

/-- Normalization keeps the extracted id as the record's `property_id`. -/
theorem normalizeRow_ok_id (r : RawRow) (p : PropertyRow)
    (h : normalizeRow r = .ok p) : p.property_id = extractId r := by
  unfold normalizeRow at h
  cases ha : amountValue r with
  | error e =>
    simp only [ha] at h
    exact Except.noConfusion h
  | ok amt =>
    simp only [ha] at h
    injection h with h2
    subst h2
    rfl

/-- On a store without the key, committing a chunk stores exactly the
first chunk row carrying that key, fields untouched. -/
theorem getPropertyRow_commitChunk_of_none (chunk : List PropertyRow) :
    ∀ (store : List PropertyRow) (s : String),
      getPropertyRow store s = none →
      getPropertyRow (commitChunk store chunk) s =
        chunk.find? (fun p => p.property_id == some s) := by
  induction chunk with
  | nil => intro store s h; simpa using h
  | cons p ps ih =>
    intro store s h
    show getPropertyRow (commitChunk (insertOrIgnore store p) ps) s = _
    cases hps : (p.property_id == some s) with
    | true =>
      have hid : p.property_id = some s := eq_of_beq hps
      rw [insertOrIgnore_absent store p s hid h]
      have hsp : getPropertyRow (store ++ [p]) s = some p := by
        rw [getPropertyRow_append, h]
        simp [getPropertyRow, List.find?, hps]
      have hps2 : (fun q : PropertyRow => q.property_id == some s) p = true := hps
      rw [getPropertyRow_commitChunk_of_some ps (store ++ [p]) s p hsp,
        List.find?_cons_of_pos ps hps2]
    | false =>
      have hstill : getPropertyRow (insertOrIgnore store p) s = none := by
        cases hid : p.property_id with
        | none =>
          rw [insertOrIgnore_id_none store p hid, getPropertyRow_append, h]
          simp [getPropertyRow, List.find?, hps]
        | some t =>
          cases hts : getPropertyRow store t with
          | some q2 =>
            rw [insertOrIgnore_present store p t hid (by rw [hts]; rfl)]
            exact h
          | none =>
            rw [insertOrIgnore_absent store p t hid hts, getPropertyRow_append, h]
            simp [getPropertyRow, List.find?, hps]
      have hps2 : ¬((fun q : PropertyRow => q.property_id == some s) p = true) := by
        simp [hps]
      rw [ih _ s hstill, List.find?_cons_of_neg ps hps2]

/-- With every row of the window normalizing successfully, the committed
rows from counter position `i` are the pending buffer followed by the
normalizations of the next `CHUNK + 1 - i` input rows. -/
theorem committedRows_of_all_ok (rows : List RawRow) :
    ∀ (i : Nat) (pending : List PropertyRow),
      0 < i → i ≤ CHUNK →
      (∀ r ∈ rows.take (CHUNK + 1 - i), (normalizeRow r).isOk) →
      committedRows rows i pending =
        pending ++ (rows.take (CHUNK + 1 - i)).filterMap
          (fun r => (normalizeRow r).toOption) := by
  induction rows with
  | nil =>
    intro i pending _ _ _
    simp [committedRows]
  | cons r rs ih =>
    intro i pending h0 hle hok
    have hw : CHUNK + 1 - i = (CHUNK - i) + 1 := by omega
    rw [hw] at hok ⊢
    rw [List.take_succ_cons] at hok ⊢
    have hr : (normalizeRow r).isOk := hok r (List.mem_cons_self _ _)
    obtain ⟨p, hp⟩ : ∃ p, normalizeRow r = .ok p := by
      cases hn : normalizeRow r with
      | error e => rw [hn] at hr; cases hr
      | ok p2 => exact ⟨p2, rfl⟩
    simp only [committedRows, hp]
    rcases Nat.lt_or_ge i CHUNK with hlt | hge
    · have hne : (i % CHUNK == 0) = false := by
        rw [Nat.mod_eq_of_lt hlt]
        exact beq_eq_false_iff_ne.mpr (Nat.pos_iff_ne_zero.mp h0)
      rw [hne]
      simp only [Bool.false_eq_true, if_false]
      have h2 : CHUNK + 1 - (i + 1) = CHUNK - i := by omega
      rw [ih (i + 1) (pending ++ [p]) (by omega) (by omega)
        (by rw [h2]; exact fun r2 hr2 => hok r2 (List.mem_cons_of_mem _ hr2))]
      rw [h2]
      simp [hp, Except.toOption, List.append_assoc]
    · have hieq : i = CHUNK := by omega
      subst hieq
      simp [Nat.mod_self, Nat.sub_self, hp, Except.toOption]

/-- With every row of the window normalizing successfully and anything at
all to flush, the run ends in the index-extension `TypeError`. -/
theorem runError_of_all_ok (rows : List RawRow) :
    ∀ (i : Nat) (pending : List PropertyRow),
      0 < i → i ≤ CHUNK →
      (∀ r ∈ rows.take (CHUNK + 1 - i), (normalizeRow r).isOk) →
      rows ≠ [] ∨ pending ≠ [] →
      runError rows i pending = some PyError.typeError := by
  induction rows with
  | nil =>
    intro i pending _ _ _ hne
    rcases hne with hl | hr
    · cases hl rfl
    · simpa [runError, List.isEmpty_iff] using hr
  | cons r rs ih =>
    intro i pending h0 hle hok _
    have hw : CHUNK + 1 - i = (CHUNK - i) + 1 := by omega
    rw [hw] at hok
    rw [List.take_succ_cons] at hok
    have hr : (normalizeRow r).isOk := hok r (List.mem_cons_self _ _)
    obtain ⟨p, hp⟩ : ∃ p, normalizeRow r = .ok p := by
      cases hn : normalizeRow r with
      | error e => rw [hn] at hr; cases hr
      | ok p2 => exact ⟨p2, rfl⟩
    simp only [runError, hp]
    rcases Nat.lt_or_ge i CHUNK with hlt | hge
    · have hne : (i % CHUNK == 0) = false := by
        rw [Nat.mod_eq_of_lt hlt]
        exact beq_eq_false_iff_ne.mpr (Nat.pos_iff_ne_zero.mp h0)
      rw [hne]
      simp only [Bool.false_eq_true, if_false]
      have h2 : CHUNK + 1 - (i + 1) = CHUNK - i := by omega
      exact ih (i + 1) (pending ++ [p]) (by omega) (by omega)
        (by rw [h2]; exact fun r2 hr2 => hok r2 (List.mem_cons_of_mem _ hr2))
        (Or.inr (by simp))
    · have hieq : i = CHUNK := by omega
      subst hieq
      simp [Nat.mod_self]

/-! Concrete fixtures used to instantiate the claim theorems -/

/-- A raw source row for owner Smith, id P1. -/
def rowSmith : RawRow :=
  [("PROPERTY_ID", "P1"), ("OWNER_NAME", "Smith"), ("AMOUNT_REPORTED", "12.50")]

/-- A raw source row for owner Jones, duplicate id P1. -/
def rowJones : RawRow :=
  [("PROPERTY_ID", "P1"), ("OWNER_NAME", "Jones"), ("AMOUNT_REPORTED", "99")]

/-- The normalization of `rowSmith` (note the trailing space produced by
the owner-name concatenation at source line 124). -/
def recSmith : PropertyRow :=
  { property_id := some "P1", owner_name := "Smith ", owner_address := ""
    owner_city := "", owner_state := "", owner_zip := ""
    amount_reported := mkRat 25 2, cash_reported := "", property_type := ""
    holder_name := "", holder_address := "", reported_date := ""
    raw_json := rowSmith }

/-- The normalization of `rowJones`. -/
def recJones : PropertyRow :=
  { property_id := some "P1", owner_name := "Jones ", owner_address := ""
    owner_city := "", owner_state := "", owner_zip := ""
    amount_reported := mkRat 99 1, cash_reported := "", property_type := ""
    holder_name := "", holder_address := "", reported_date := ""
    raw_json := rowJones }

/-! Claim theorems -/

/-- Claim C1: for source rows sharing the same `property_id`, the record
retrievable via `getById` is the first successfully committed one, its
fields unchanged, and later duplicates are discarded without merge or
overwrite.  First conjunct: a record already in the store survives any
further ingestion (later chunks or whole re-runs) unchanged.  Second
conjunct: committing a chunk into a store not containing the id stores
exactly the first chunk row carrying that id, fields untouched. -/
theorem C1_first_write_wins :
    (∀ (db : DB) (buffers : List (List RawRow)) (s : String) (q : PropertyRow),
        getPropertyRow db.properties s = some q →
        getPropertyRow (build_database db buffers).1.properties s = some q) ∧
    (∀ (store chunk : List PropertyRow) (s : String),
        getPropertyRow store s = none →
        getPropertyRow (commitChunk store chunk) s =
          chunk.find? (fun p => p.property_id == some s)) :=
  ⟨fun db buffers s q h => getPropertyRow_build_database_of_some buffers db s q h,
   fun store chunk s h => getPropertyRow_commitChunk_of_none chunk store s h⟩

/-- Claim C1 witness: with Smith's record committed, ingesting the Jones
duplicate leaves getById("P1") at Smith's record, and committing the
two-record chunk on an empty store keeps the first. -/
theorem C1_first_write_wins_witness :
    getPropertyRow (build_database ⟨[recSmith], []⟩ [[rowJones]]).1.properties "P1"
      = some recSmith ∧
    getPropertyRow (commitChunk [] [recSmith, recJones]) "P1" =
      [recSmith, recJones].find? (fun p => p.property_id == some "P1") :=
  ⟨C1_first_write_wins.1 ⟨[recSmith], []⟩ [[rowJones]] "P1" recSmith (by decide),
   C1_first_write_wins.2 [] [recSmith, recJones] "P1" (by decide)⟩

/-- Claim C2: evaluation of the code on a one-row table.  The run aborts with
the `TypeError` raised by the parameterless `executemany` at the
index-extension step, after the row was committed: the store holds P1 but
`properties_fts` is empty, so a search for the verbatim owner token
"Smith" returns no results — store and index diverge and the committed
record is unsearchable, contradicting the claimed invariant. -/
theorem C2_committed_but_unindexed :
    (sync DB.empty [[("PROPERTY_ID", "P1"), ("OWNER_NAME", "Smith")]]).2
      = some PyError.typeError ∧
    ((sync DB.empty [[("PROPERTY_ID", "P1"), ("OWNER_NAME", "Smith")]]).1.properties.map
        (fun p => p.property_id)) = [some "P1"] ∧
    (sync DB.empty [[("PROPERTY_ID", "P1"), ("OWNER_NAME", "Smith")]]).1.fts = [] ∧
    (search (sync DB.empty [[("PROPERTY_ID", "P1"), ("OWNER_NAME", "Smith")]]).1
        "Smith" 5).2 = .ok [] := by
  decide

/-- Claim C3 counterexample: a single row with no id-bearing field is committed
with a `NULL` id, and `NULL` primary keys never conflict in SQLite, so an
identical second run inserts it again — the store grows from 1 to 2
records, refuting idempotency as universally claimed. -/
theorem C3_rerun_reinserts_null_id :
    ((sync DB.empty [[("OWNER_NAME", "Smith")]]).1.properties.length = 1) ∧
    ((sync (sync DB.empty [[("OWNER_NAME", "Smith")]]).1
        [[("OWNER_NAME", "Smith")]]).1.properties.length = 2) := by
  decide

/-- Claim C3 (amended): when every input row carries an id-bearing field,
re-running `sync` on identical input leaves the store exactly as after
the first run — every row is absorbed by the `INSERT OR IGNORE` dedup and
zero additional records are inserted. -/
theorem C3_idempotent_for_id_rows (table : List RawRow)
    (h : ∀ r ∈ table, (extractId r).isSome) :
    (sync (sync DB.empty table).1 table).1 = (sync DB.empty table).1 := by
  have hall : ∀ p ∈ committedRows table 1 [],
      ∃ s, p.property_id = some s ∧
        (getPropertyRow
          (commitChunk DB.empty.properties (committedRows table 1 [])) s).isSome := by
    intro p hp
    rcases mem_committedRows table 1 [] p hp with h0 | ⟨r, hr, hok⟩
    · cases h0
    · have hid : p.property_id = extractId r := normalizeRow_ok_id r p hok
      obtain ⟨s, hs⟩ := Option.isSome_iff_exists.mp (h r hr)
      refine ⟨s, by rw [hid, hs], ?_⟩
      exact isSome_commitChunk_of_mem (committedRows table 1 [])
        DB.empty.properties p s hp (by rw [hid, hs])
  show (build_database (build_database DB.empty [table]).1 [table]).1
      = (build_database DB.empty [table]).1
  rw [build_database_single DB.empty table]
  rw [build_database_single]
  rw [commitChunk_eq_of_all_present (committedRows table 1 []) _ hall]

/-- Claim C3 witness: a concrete one-row table with an id. -/
theorem C3_idempotent_for_id_rows_witness :
    (sync (sync DB.empty [[("PROPERTY_ID", "P1"), ("OWNER_NAME", "Smith")]]).1
        [[("PROPERTY_ID", "P1"), ("OWNER_NAME", "Smith")]]).1
      = (sync DB.empty [[("PROPERTY_ID", "P1"), ("OWNER_NAME", "Smith")]]).1 :=
  C3_idempotent_for_id_rows [[("PROPERTY_ID", "P1"), ("OWNER_NAME", "Smith")]] (by decide)

/-- Claim C4 counterexample: a one-row table whose amount does not parse makes
`build_database` raise `ValueError` inside normalization — before any
commit and before the index-extension step — with nothing committed,
refuting the claim's "for every input table containing at least one row". -/
theorem C4_valueerror_preempts_commit :
    build_database DB.empty [[[("PROPERTY_ID", "P1"), ("AMOUNT_REPORTED", "abc")]]] =
      (DB.empty, some PyError.valueError) := by
  decide

/-- Claim C4 (amended): for every nonempty table whose first-chunk rows all
normalize, `build_database` raises `TypeError` at the index-extension
`executemany` (called with only a SQL string), after the chunk's rows
were committed to `properties` and with `properties_fts` untouched, so
the run aborts with those committed records unindexed. -/
theorem C4_typeerror_after_chunk_commit (db : DB) (table : List RawRow)
    (h1 : table ≠ [])
    (h2 : ∀ r ∈ table.take CHUNK, (normalizeRow r).isOk) :
    build_database db [table] =
      ({ properties := commitChunk db.properties
            ((table.take CHUNK).filterMap (fun r => (normalizeRow r).toOption)),
         fts := db.fts },
        some PyError.typeError) := by
  have ht : CHUNK + 1 - 1 = CHUNK := by omega
  rw [build_database_single,
    committedRows_of_all_ok table 1 [] (by decide) (by decide) (by rw [ht]; exact h2),
    runError_of_all_ok table 1 [] (by decide) (by decide) (by rw [ht]; exact h2) (Or.inl h1),
    ht, List.nil_append]

/-- Claim C4 witness: one well-formed row. -/
theorem C4_typeerror_after_chunk_commit_witness :
    build_database DB.empty [[[("PROPERTY_ID", "P1"), ("OWNER_NAME", "Smith")]]] =
      ({ properties := commitChunk DB.empty.properties
            (([[("PROPERTY_ID", "P1"), ("OWNER_NAME", "Smith")]].take CHUNK).filterMap
              (fun r => (normalizeRow r).toOption)),
         fts := DB.empty.fts },
        some PyError.typeError) :=
  C4_typeerror_after_chunk_commit DB.empty
    [[("PROPERTY_ID", "P1"), ("OWNER_NAME", "Smith")]] (by decide) (by decide)

/-- Claim C5 counterexample: a row whose AMOUNT_REPORTED is a non-empty,
non-numeric string does not normalize to amount 0 — `float` raises
`ValueError` and the row (and with it the batch) fails. -/
theorem C5_unparsable_amount_fails_row :
    normalizeRow [("PROPERTY_ID", "P1"), ("AMOUNT_REPORTED", "abc")] =
      .error PyError.valueError := by
  decide

/-- Claim C5 (amended): when AMOUNT_REPORTED is absent or empty, normalization
succeeds and the record's amount_reported is 0; only a non-empty
unparsable value makes the row fail. -/
theorem C5_amount_defaults_to_zero (r : RawRow)
    (h : r.lookup "AMOUNT_REPORTED" = none ∨ r.lookup "AMOUNT_REPORTED" = some "") :
    ∃ p, normalizeRow r = .ok p ∧ p.amount_reported = 0 := by
  have ha : amountValue r = .ok 0 := by
    rcases h with h | h <;> simp [amountValue, h]
  refine ⟨{ property_id := extractId r
            owner_name := getStr r "OWNER_NAME" ++ " " ++ getStr r "OWNER_FIRST_NAME"
            owner_address := getStr r "OWNER_ADDRESS"
            owner_city := getStr r "OWNER_CITY"
            owner_state := getStr r "OWNER_STATE"
            owner_zip := getStr r "OWNER_ZIP"
            amount_reported := 0
            cash_reported := getStr r "CASH_REPORTED"
            property_type := getStr r "PROPERTY_TYPE"
            holder_name := getStr r "HOLDER_NAME"
            holder_address := getStr r "HOLDER_ADDRESS"
            reported_date := getStr r "REPORTED_DATE"
            raw_json := r }, ?_, rfl⟩
  simp only [normalizeRow, ha]

/-- Claim C5 witness: a row with no AMOUNT_REPORTED key. -/
theorem C5_amount_defaults_to_zero_witness :
    ∃ p, normalizeRow [("PROPERTY_ID", "P1")] = .ok p ∧ p.amount_reported = 0 :=
  C5_amount_defaults_to_zero [("PROPERTY_ID", "P1")] (Or.inl (by decide))

/-- Claim C6 counterexample: a row with neither id header is committed (with a
`NULL` property_id) rather than dropped, so not every committed record
has a non-null id. -/
theorem C6_null_id_row_committed :
    ((sync DB.empty [[("OWNER_NAME", "Smith")]]).1.properties.map
      (fun p => p.property_id)) = [none] := by
  decide

/-- Claim C6 (amended): a raw row carrying no id-bearing field under either
header spelling is not dropped: whenever it normalizes, its record has a
`NULL` property_id, `INSERT OR IGNORE` always commits it (a `NULL`
primary key never conflicts), and the committed record is invisible to
`getById` (SQL equality never matches `NULL`). -/
theorem C6_null_id_committed_not_dropped (r : RawRow) (p : PropertyRow)
    (h1 : extractId r = none) (h2 : normalizeRow r = .ok p) :
    p.property_id = none ∧
    (∀ store : List PropertyRow, insertOrIgnore store p = store ++ [p]) ∧
    (∀ (store : List PropertyRow) (pid : String),
        getPropertyRow (store ++ [p]) pid = getPropertyRow store pid) := by
  have hid : p.property_id = none := by
    rw [normalizeRow_ok_id r p h2, h1]
  refine ⟨hid, fun store => insertOrIgnore_id_none store p hid, ?_⟩
  intro store pid
  rw [getPropertyRow_append]
  cases hs : getPropertyRow store pid with
  | some q => rfl
  | none => simp [getPropertyRow, List.find?, hid]

/-- Claim C6 witness: the id-less Smith row and its normalized record. -/
theorem C6_null_id_committed_not_dropped_witness :
    ({ property_id := none, owner_name := "Smith ", owner_address := ""
       owner_city := "", owner_state := "", owner_zip := ""
       amount_reported := 0, cash_reported := "", property_type := ""
       holder_name := "", holder_address := "", reported_date := ""
       raw_json := [("OWNER_NAME", "Smith")] } : PropertyRow).property_id = none ∧
    insertOrIgnore []
      { property_id := none, owner_name := "Smith ", owner_address := ""
        owner_city := "", owner_state := "", owner_zip := ""
        amount_reported := 0, cash_reported := "", property_type := ""
        holder_name := "", holder_address := "", reported_date := ""
        raw_json := [("OWNER_NAME", "Smith")] } =
      [{ property_id := none, owner_name := "Smith ", owner_address := ""
         owner_city := "", owner_state := "", owner_zip := ""
         amount_reported := 0, cash_reported := "", property_type := ""
         holder_name := "", holder_address := "", reported_date := ""
         raw_json := [("OWNER_NAME", "Smith")] }] ∧
    getPropertyRow
      [{ property_id := none, owner_name := "Smith ", owner_address := ""
         owner_city := "", owner_state := "", owner_zip := ""
         amount_reported := 0, cash_reported := "", property_type := ""
         holder_name := "", holder_address := "", reported_date := ""
         raw_json := [("OWNER_NAME", "Smith")] }] "P1" = getPropertyRow [] "P1" := by
  have h := C6_null_id_committed_not_dropped [("OWNER_NAME", "Smith")]
    { property_id := none, owner_name := "Smith ", owner_address := ""
      owner_city := "", owner_state := "", owner_zip := ""
      amount_reported := 0, cash_reported := "", property_type := ""
      holder_name := "", holder_address := "", reported_date := ""
      raw_json := [("OWNER_NAME", "Smith")] } (by decide) (by decide)
  exact ⟨h.1, h.2.1 [], h.2.2 [] "P1"⟩

/-- Claim C7: evaluation of the end-to-end scenario on the code.  Ingesting the
two-row Smith/Jones table aborts with the index-extension `TypeError`
(so no run summary is produced), the store keeps only the first row,
`get_property` returns owner_name "Smith " (trailing space from the
owner-name concatenation, not "Smith"), and both searches return empty —
search("Smith", 5) does not return ["P1"] as claimed. -/
theorem C7_end_to_end_actual :
    (sync DB.empty [rowSmith, rowJones]).2 = some PyError.typeError ∧
    (sync DB.empty [rowSmith, rowJones]).1.properties.length = 1 ∧
    ((get_property (sync DB.empty [rowSmith, rowJones]).1 "P1").2.map
        (fun p => p.owner_name)) = .ok "Smith " ∧
    (search (sync DB.empty [rowSmith, rowJones]).1 "Smith" 5).2 = .ok [] ∧
    (search (sync DB.empty [rowSmith, rowJones]).1 "Jones" 5).2 = .ok [] := by
  decide

/-- Claim C8: the `search` endpoint rejects a query with the 400 "Query too short" error,
before any index access, exactly when the query has fewer than 2
characters; `search("a", 10)` is rejected and `search("ab", 10)` is
accepted and proceeds to the (empty) index. -/
theorem C8_query_floor :
    (∀ (db : DB) (q : String) (limit : Nat),
        (search db q limit).2 = .error queryTooShort ↔ q.length < 2) ∧
    (search DB.empty "a" 10).2 = .error queryTooShort ∧
    (search DB.empty "ab" 10).2 = .ok [] := by
  refine ⟨fun db q limit => ?_, by decide, by decide⟩
  by_cases h : q.length < 2
  · simp [search, h]
  · simp [search, h]

/-- Claim C9 counterexample: on an empty archive, opening the first table fails
with the unhandled `IndexError` from `namelist()[0]`, not with the
designated `ArchiveEmpty` error the claim names. -/
theorem C9_empty_archive_not_archiveempty :
    extract_csv_from_zip [] = .error PyError.indexError ∧
    extract_csv_from_zip [] ≠ .error PyError.archiveEmpty := by
  decide

/-- Claim C9 (amended): opening the first table of an archive fails exactly on
the empty archive, and then with an unhandled `IndexError` (an arbitrary
runtime exception, not a designated fetch-layer error). -/
theorem C9_empty_archive_index_error (entries : List (String × String)) :
    extract_csv_from_zip entries = .error PyError.indexError ↔ entries = [] := by
  cases entries with
  | nil => simp [extract_csv_from_zip]
  | cons e t =>
    cases e
    simp [extract_csv_from_zip]

/-- Claim C10: the `start_claim` endpoint performs no writes — for every payload the
database (record store and search index) is returned unchanged, and the
response is exactly the `get_property` lookup's outcome (the property
wrapped in the acknowledgement on success, the 404 on absence). -/
theorem C10_start_claim_readonly (db : DB) (payload : ClaimRequest) :
    start_claim db payload =
      (db, (get_property db payload.property_id).2.map
        (fun p => ("Claim initiated", p))) := by
  unfold start_claim get_property
  cases h : getPropertyRow db.properties payload.property_id with
  | some p => simp [Except.map]
  | none => simp [Except.map]

end UPA
